import Mathlib

/-!
Verification of the moviepy Clip core against its specification.

The Python source is shallowly embedded:
* times are exact rationals (the source uses floats; all claims are about
  exact arithmetic identities, so `ℚ` is the faithful carrier);
* a clip object (`moviepy/Clip.py`) becomes the record `CD` below;
  frames are an abstract type `F`; `make_frame` may raise, so it is a
  function `ℚ → Except Err F`;
* Python exceptions become the `Err` type and fallible operations return
  `Except Err _`;
* object identity and in-place mutation (needed for the copy-before-mutate
  contract of `moviepy/decorators.py`) are modelled by an explicit store
  of clip records addressed by naturals, further below.

The single-slot memoization cache (`memoize`, `memoized_t`,
`memoized_frame`) is instance-local mutable state that no claim touches:
`get_frame` is modelled on the default `memoize = False` path.
-/

/-- Python exceptions raised by the embedded code. -/
inductive Err where
  | valueError (msg : String)
  | typeError
  | indexError
  | attributeError
  deriving Repr, DecidableEq

instance {ε α : Type} [DecidableEq ε] [DecidableEq α] : DecidableEq (Except ε α) := fun x y =>
  match x, y with
  | .ok a, .ok b =>
      if h : a = b then .isTrue (by rw [h]) else .isFalse (fun hc => h (by cases hc; rfl))
  | .error a, .error b =>
      if h : a = b then .isTrue (by rw [h]) else .isFalse (fun hc => h (by cases hc; rfl))
  | .ok _, .error _ => .isFalse (fun hc => Except.noConfusion hc)
  | .error _, .ok _ => .isFalse (fun hc => Except.noConfusion hc)

/-- Python `int()` applied to a rational: truncation toward zero
(`int(2.7) == 2`, `int(-2.7) == -2`). -/
def pyInt (q : ℚ) : ℤ := if q < 0 then -Int.floor (-q) else Int.floor q

/-- The state of a `Clip` object (`Clip.__init__` plus the attributes the
modelled operations read or write).  `mask` and `audio` are store
addresses of child clips (`None` → `none`); in the pure, single-object
reading of the operations below they are just carried along unchanged.
The `fps` attribute is optional on clips; per the spec's data-model note,
"attribute absent" and "attribute set to None" are both `none`. -/
structure CD (F : Type) where
  start : Option ℚ := some 0
  end_ : Option ℚ := none
  duration : Option ℚ := none
  make_frame : Option (ℚ → Except Err F) := none
  fps : Option ℚ := none
  mask : Option Nat := none
  audio : Option Nat := none

/-- `Clip.get_frame` on the default non-memoized path: raises when no
`make_frame` is set, otherwise evaluates it. -/
def get_frame {F : Type} (c : CD F) (t : ℚ) : Except Err F :=
  match c.make_frame with
  | none => .error (.valueError "No make_frame attribute in this clip.")
  | some mf => mf t

/-- Body of `Clip.set_start` (the mutation applied to the copy by the
`outplace` decorator).  `t` is already a normalized numeric time.  The
source's `if duration and change_end / elif end and not change_end`
ladder is split on `change_end` first — the two forms pick exactly the
same branch for every input. -/
def set_start {F : Type} (c : CD F) (t : ℚ) (change_end : Bool) : CD F :=
  let c := { c with start := some t }
  if change_end then
    match c.duration with
    | some dur => { c with end_ := some (t + dur) }
    | none => c
  else
    match c.end_ with
    | some e => { c with duration := some (e - t) }
    | none => c

/-- Body of `Clip.set_end`. -/
def set_end {F : Type} (c : CD F) (t : ℚ) : CD F :=
  let c := { c with end_ := some t }
  match c.start with
  | none =>
    match c.duration with
    | some dur => { c with start := some (t - dur) }
    | none => c
  | some s => { c with duration := some (t - s) }

/-- Body of `Clip.set_duration`.  With `change_end = true` the source
computes `self.start + t`, a `TypeError` when `start` is `None`; with
`change_end = false` it raises a `ValueError` when `end` is `None`. -/
def set_duration {F : Type} (c : CD F) (t : ℚ) (change_end : Bool) : Except Err (CD F) :=
  let c := { c with duration := some t }
  if change_end then
    match c.start with
    | none => .error .typeError
    | some s => .ok { c with end_ := some (s + t) }
  else
    match c.end_ with
    | none => .error (.valueError "Cannot change start of clip with undefined end.")
    | some e => .ok { c with start := some (e - t) }

/-- Bound resolution of `Clip.subclip`: negative bounds are taken relative
to `duration` and raise a `ValueError` when `duration` is `None`; a `None`
`t_end` defaults to `duration` (possibly staying `None`). -/
def resolve_subclip_bounds {F : Type} (c : CD F) (t_start : ℚ) (t_end? : Option ℚ) :
    Except Err (ℚ × Option ℚ) :=
  let ts? : Except Err ℚ :=
    if t_start < 0 then
      match c.duration with
      | none => .error (.valueError "Subclip with negative times can only be extracted from clips with a duration")
      | some d => .ok (d + t_start)
    else .ok t_start
  match ts? with
  | .error e => .error e
  | .ok ts =>
    let te?? : Except Err (Option ℚ) :=
      match t_end? with
      | none => .ok c.duration
      | some te =>
        if te < 0 then
          match c.duration with
          | none => .error (.valueError "Subclip with negative times can only be extracted from clips with a duration")
          | some d => .ok (some (d + te))
        else .ok (some te)
    match te?? with
    | .error e => .error e
    | .ok te? => .ok (ts, te?)

/-- `Clip.subclip`: the returned clip is the copy with
`start = t_start`, `end = t_end`, `duration = t_end - t_start`.
When the resolved `t_end` is still `None` the assignment
`newclip.duration = t_end - t_start` is a `TypeError`
(`None - number`); the half-mutated copy is discarded by the raise.
(The dead `if t_start is None: t_start = 0` branch cannot fire for a
numeric `t_start`.) -/
def subclip {F : Type} (c : CD F) (t_start : ℚ) (t_end? : Option ℚ) : Except Err (CD F) :=
  match resolve_subclip_bounds c t_start t_end? with
  | .error e => .error e
  | .ok (_, none) => .error .typeError
  | .ok (ts, some te) =>
      .ok { c with start := some ts, end_ := some te, duration := some (te - ts) }

/-- The frame function installed by `Clip.cutout`: it closes over the
*original* clip's `get_frame`. -/
def cutout_mf {F : Type} (c : CD F) (ta tb : ℚ) : ℚ → Except Err F :=
  fun t => if t < ta then get_frame c t else get_frame c (t + (tb - ta))

/-- `Clip.cutout` with numeric bounds (the `tb is None` default resolves
`tb` to `self.duration` before this point): the copy gets the spliced
frame function, and `duration - (tb - ta)` when `duration` is known.
`start` and `end` are left exactly as copied. -/
def cutout {F : Type} (c : CD F) (ta tb : ℚ) : CD F :=
  let c' := { c with make_frame := some (cutout_mf c ta tb) }
  match c.duration with
  | none => c'
  | some d => { c' with duration := some (d - (tb - ta)) }

/-- Scalar branch of `Clip.is_playing`:
`(t >= self.start) and ((self.end is None) or (t <= self.end))`;
comparing against a `None` start is a `TypeError`. -/
def is_playing {F : Type} (c : CD F) (t : ℚ) : Except Err Bool :=
  match c.start with
  | none => .error .typeError
  | some s => .ok (decide (s ≤ t) && (match c.end_ with
      | none => true
      | some e => decide (t ≤ e)))

/-- Result shape of the vector branch of `is_playing`: either the scalar
`False` or an elementwise boolean mask. -/
inductive PlayResult where
  | scalarFalse
  | mask (bs : List Bool)
  deriving Repr, DecidableEq

/-- Vector branch of `Clip.is_playing`, in source order: compute
`tmin = t.min()` and `tmax = t.max()` (numpy raises on an empty vector);
return `False` when `end` is defined and `tmin >= end`; return `False`
when `tmax < start` (a `TypeError` when `start` is `None`); otherwise
the mask `(t >= start) [& (t <= end)]`. -/
def is_playing_vec {F : Type} (c : CD F) (ts : List ℚ) : Except Err PlayResult :=
  match ts with
  | [] => .error (.valueError "zero-size array reduction")
  | x :: xs =>
    let tmin := xs.foldl min x
    let tmax := xs.foldl max x
    if (match c.end_ with | some e => decide (e ≤ tmin) | none => false) then
      .ok .scalarFalse
    else
      match c.start with
      | none => .error .typeError
      | some s =>
        if tmax < s then .ok .scalarFalse
        else .ok (.mask (ts.map (fun t => decide (s ≤ t) && (match c.end_ with
          | none => true
          | some e => decide (t ≤ e)))))

/-- The scalar playing rule, `start ≤ t` and (`end` undefined or
`t ≤ end`), as the boolean the source computes — used to state that the
vector mask agrees with the scalar rule pointwise. -/
def playRule (eo : Option ℚ) (s t : ℚ) : Bool :=
  decide (s ≤ t) && (match eo with
    | none => true
    | some e => decide (t ≤ e))

/-- `numpy.linspace(a, b, num)` with the default inclusive endpoint:
`num` evenly spaced points from `a` to `b`. -/
def linspace (a b : ℚ) (num : Nat) : List ℚ :=
  match num with
  | 0 => []
  | 1 => [a]
  | Nat.succ n => (List.range (n + 1)).map (fun i : ℕ => a + (b - a) * (i : ℚ) / (n : ℚ))

/-- The sample times of `Clip.iter_frames`: the `requires_duration`
decorator raises when `duration` is `None`; the effective fps is the
argument, falling back to the clip's `fps` attribute
(`use_clip_fps_by_default` plus the in-body `if fps is None` fallback —
both collapse to one `Option` fallback here), raising when neither is
available; then `total_frames = int(duration * fps)` and
`times = np.linspace(0, duration, total_frames + 1)[:-1]`.
(`Int.toNat` clamps a negative `total_frames + 1` to zero; that region —
negative `duration * fps` — is where numpy itself errors out.) -/
def iter_frames_times {F : Type} (c : CD F) (fps? : Option ℚ) : Except Err (List ℚ) :=
  match c.duration with
  | none => .error (.valueError "Attribute duration not set")
  | some dur =>
    match (match fps? with | none => c.fps | some f => some f) with
    | none => .error (.valueError "No fps attribute specified")
    | some fps =>
      let total_frames : ℤ := pyInt (dur * fps)
      .ok (linspace 0 dur (total_frames + 1).toNat).dropLast

/-- `Clip.iter_frames` itself: one `get_frame` per sample time (default
`with_times = False`, `dtype = None`). -/
def iter_frames {F : Type} (c : CD F) (fps? : Option ℚ) : Except Err (List F) := do
  let ts ← iter_frames_times c fps?
  ts.mapM (get_frame c)

/-- A dynamically-typed Python value as accepted by `cvsecs`
(`moviepy/tools.py`).  Strings are carried as character lists; tuples and
lists of numbers are `vtup`; any other object is `vother` with an opaque
tag witnessing passthrough identity. -/
inductive PyVal where
  | vnone
  | vnum (q : ℚ)
  | vtup (l : List ℚ)
  | vstr (cs : List Char)
  | vother (tag : Nat)
  deriving Repr, DecidableEq

/-- Digit-string value; `none` on any non-digit. -/
def digitsVal (l : List Char) : Option ℕ :=
  l.foldl (fun acc c =>
    match acc with
    | none => none
    | some n => if c.isDigit then some (10 * n + (c.toNat - 48)) else none) (some 0)

/-- Modelled fragment of Python `float(str)`: unsigned decimal literals
`digits`, `digits.digits`, `.digits`, `digits.` (the only shapes the
time-string grammar produces); everything else fails like `float()`
raising `ValueError`. -/
def parseDecL (cs : List Char) : Option ℚ :=
  match splitOnChar '.' cs with
  | [a] =>
      if a ≠ [] ∧ a.all Char.isDigit then (digitsVal a).map (fun n => (n : ℚ)) else none
  | [a, b] =>
      if (a ≠ [] ∨ b ≠ []) ∧ a.all Char.isDigit ∧ b.all Char.isDigit then
        match digitsVal a, digitsVal b with
        | some na, some nb => some ((na : ℚ) + (nb : ℚ) / (10 : ℚ) ^ b.length)
        | _, _ => none
      else none
  | _ => none
where
  /-- `str.split(sep)` on a single-character separator. -/
  splitOnChar (sep : Char) : List Char → List (List Char)
    | [] => [[]]
    | x :: xs =>
      let r := splitOnChar sep xs
      if x = sep then [] :: r
      else
        match r with
        | [] => [[x]]
        | h :: t => (x :: h) :: t

/-- `cvsecs` (`moviepy/tools.py`): `None` passes through; numbers become
floats; 1/2/3-tuples use the sec / min,sec / hr,min,sec formulas (other
lengths fall through to `return time` unchanged); strings get commas
replaced by dots, are parsed as a plain float when they contain no `:`,
and otherwise are split on `:` (each part parsed as a float, raising on a
malformed part) with the 2/3-part formulas (other part counts fall
through, returning the comma-substituted string); any other value is
returned unchanged. -/
def cvsecs : PyVal → Except Err PyVal
  | .vnone => .ok .vnone
  | .vnum q => .ok (.vnum q)
  | .vtup l =>
      .ok (match l with
      | [s] => .vnum s
      | [m, s] => .vnum (m * 60 + s)
      | [h, m, s] => .vnum (h * 3600 + m * 60 + s)
      | _ => .vtup l)
  | .vstr cs0 =>
      let cs := cs0.map (fun ch => if ch = ',' then '.' else ch)
      if ':' ∈ cs then
        match (parseDecL.splitOnChar ':' cs).mapM parseDecL with
        | none => .error (.valueError "could not convert string to float")
        | some ps =>
          match ps with
          | [m, s] => .ok (.vnum (m * 60 + s))
          | [h, m, s] => .ok (.vnum (h * 3600 + m * 60 + s))
          | _ => .ok (.vstr cs)
      else
        match parseDecL cs with
        | none => .error (.valueError "could not convert string to float")
        | some q => .ok (.vnum q)
  | .vother tag => .ok (.vother tag)

/-- Scalar branch of `AudioArrayClip.make_frame`: `i = int(self.fps * t)`;
outside `[0, len(array))` it returns `0 * self.array[0]` (an `IndexError`
on an empty table), otherwise `self.array[i]`. -/
def aac_make_frame (array : List (List ℚ)) (fps : ℚ) (t : ℚ) : Except Err (List ℚ) :=
  let i := pyInt (fps * t)
  if i < 0 ∨ (array.length : ℤ) ≤ i then
    match array.head? with
    | none => .error .indexError
    | some r0 => .ok (r0.map (fun _ => 0))
  else
    match array[i.toNat]? with
    | none => .error .indexError
    | some r => .ok r

/-- numpy broadcast of one gathered table row into a width-2 row of the
zeros array: a mono row is duplicated across both channels, a stereo row
fills the slot exactly.  (Any other width fails the block-level shape
check in `aac_make_frame_vec` before any row is written, so the
catch-all branch is never reached on a broadcastable table.) -/
def broadcastRow : List ℚ → List ℚ
  | [x] => [x, x]
  | r => r

/-- Vector branch of `AudioArrayClip.make_frame`:
`array_inds = (fps * t).astype(int)`,
`in_array = (array_inds > 0) & (array_inds < len(array))`,
`result = np.zeros((len(t), 2))`,
`result[in_array] = self.array[array_inds[in_array]]`, return `result`.
`np.array(array)` is rectangular with some channel width `w`; the masked
assignment broadcasts the gathered `(k, w)` block into the `(k, 2)`
selection of the zeros array.  Broadcastability is a shape property of
the whole block, independent of how many entries are in range: it
succeeds exactly for `w = 2` (rows copied) and `w = 1` (mono rows
duplicated across both channels) and raises a broadcast `ValueError`
for every other width — including the empty table, whose gathered block
has the incompatible shape `(0,)`. -/
def aac_make_frame_vec (array : List (List ℚ)) (fps : ℚ) (ts : List ℚ) :
    Except Err (List (List ℚ)) :=
  match array.head? with
  | none => .error (.valueError "could not broadcast input array")
  | some r0 =>
    if (r0.length = 1 ∨ r0.length = 2) ∧ array.all (fun r => r.length = r0.length) then
      .ok (ts.map (fun t =>
        let i := pyInt (fps * t)
        if 0 < i ∧ i < (array.length : ℤ) then broadcastRow (array.getD i.toNat [])
        else [0, 0]))
    else .error (.valueError "could not broadcast input array")

/-- The clip record `AudioArrayClip.__init__(array, fps)` fills in:
`duration = len(array)/fps`, the scalar `make_frame` above, and the
clip's own `fps`. -/
def aacRecord (array : List (List ℚ)) (fps : ℚ) : CD (List ℚ) :=
  { start := some 0, end_ := none,
    duration := some ((array.length : ℚ) / fps),
    make_frame := some (aac_make_frame array fps),
    fps := some fps, mask := none, audio := none }

/-- `AudioArrayClip.__init__(array, fps)` builds `aacRecord`; the final
`nchannels` probe evaluates `get_frame(0)`, so construction itself
raises on an empty table. -/
def audioArrayClip (array : List (List ℚ)) (fps : ℚ) : Except Err (CD (List ℚ)) :=
  match aac_make_frame array fps 0 with
  | .error e => .error e
  | .ok _ => .ok (aacRecord array fps)

/-!
## Object store

Python objects are mutable and aliased, which is what the
copy-before-mutate contract is about.  A store is a list of clip records;
an address is an index; `copy.copy` allocates a fresh cell holding the
same record.  Every operation takes the store and the receiver's address
and returns the updated store together with the result address (or the
raised exception).  `convert_to_seconds` is the identity on the already
numeric time arguments and is not represented.
-/

/-- The object store. -/
abbrev Store (F : Type) : Type := List (CD F)

/-- Write through an address (no-op on a dangling address, which the
modelled programs never produce). -/
def upd {F : Type} (s : Store F) (a : Nat) (f : CD F → CD F) : Store F :=
  match s[a]? with
  | none => s
  | some d => List.set s a (f d)

/-- `copy.copy` of an optional child: `copy(None)` is `None`; otherwise a
fresh cell with the child's record (grandchildren stay shared — a shallow
copy). -/
def copyChild {F : Type} (s : Store F) : Option Nat → Store F × Option Nat
  | none => (s, none)
  | some m =>
    match s[m]? with
    | none => (s, some m)
    | some dm => (s ++ [dm], some s.length)

/-- `Clip.copy`: shallow copy of the clip, then `newclip.audio =
copy(self.audio)` and `newclip.mask = copy(self.mask)` (in source
order). -/
def copyClip {F : Type} (s : Store F) (a : Nat) : Store F × Nat :=
  match s[a]? with
  | none => (s, a)
  | some d =>
    let n := s.length
    let s1 := s ++ [d]
    let p2 := copyChild s1 d.audio
    let s3 := upd p2.1 n (fun c => { c with audio := p2.2 })
    let p4 := copyChild s3 d.mask
    (upd p4.1 n (fun c => { c with mask := p4.2 }), n)

/-- The `outplace` decorator (`moviepy/decorators.py`): run the mutating
body on a fresh copy and return the copy; an exception from the body
propagates, abandoning the copy. -/
def outplace {F : Type} (body : CD F → Except Err (CD F)) (s : Store F) (a : Nat) :
    Store F × Except Err Nat :=
  let p := copyClip s a
  match p.1[p.2]? with
  | none => (p.1, .error .attributeError)
  | some d =>
    match body d with
    | .error e => (p.1, .error e)
    | .ok d' => (upd p.1 p.2 (fun _ => d'), .ok p.2)

/-- The `apply_to_audio` decorator: run `g` on the clip, then, when the
clip's `audio` is set, run `g` on the audio and attach the result to the
new clip's `audio` slot. -/
def apply_to_audio {F : Type} (g : Store F → Nat → Store F × Except Err Nat)
    (s : Store F) (a : Nat) : Store F × Except Err Nat :=
  let p := g s a
  match p.2 with
  | .error e => (p.1, .error e)
  | .ok n =>
    match (p.1[a]?).bind CD.audio with
    | none => (p.1, .ok n)
    | some au =>
      let q := g p.1 au
      match q.2 with
      | .error e => (q.1, .error e)
      | .ok na => (upd q.1 n (fun c => { c with audio := some na }), .ok n)

/-- The `apply_to_mask` decorator, same shape as `apply_to_audio`. -/
def apply_to_mask {F : Type} (g : Store F → Nat → Store F × Except Err Nat)
    (s : Store F) (a : Nat) : Store F × Except Err Nat :=
  let p := g s a
  match p.2 with
  | .error e => (p.1, .error e)
  | .ok n =>
    match (p.1[a]?).bind CD.mask with
    | none => (p.1, .ok n)
    | some mk =>
      let q := g p.1 mk
      match q.2 with
      | .error e => (q.1, .error e)
      | .ok nm => (upd q.1 n (fun c => { c with mask := some nm }), .ok n)

/-- Store-level `Clip.subclip` (undecorated core): bound resolution can
raise before the copy; the `t_end = None` `TypeError` fires after the
copy was allocated and `start`/`end` assigned, and abandons it. -/
def subclip_core {F : Type} (t_start : ℚ) (t_end? : Option ℚ) (s : Store F) (a : Nat) :
    Store F × Except Err Nat :=
  match s[a]? with
  | none => (s, .error .attributeError)
  | some d =>
    match resolve_subclip_bounds d t_start t_end? with
    | .error e => (s, .error e)
    | .ok (ts, te?) =>
      let p := copyClip s a
      match te? with
      | none =>
        (upd p.1 p.2 (fun c => { c with start := some ts, end_ := none }), .error .typeError)
      | some te =>
        (upd p.1 p.2 (fun c =>
          { c with start := some ts, end_ := some te, duration := some (te - ts) }), .ok p.2)

/-- Store-level `Clip.cutout` (undecorated core): copy, install the
spliced frame function closing over the original's current state, update
`duration` when known. -/
def cutout_core {F : Type} (ta tb : ℚ) (s : Store F) (a : Nat) : Store F × Except Err Nat :=
  match s[a]? with
  | none => (s, .error .attributeError)
  | some d =>
    let p := copyClip s a
    let s2 := upd p.1 p.2 (fun c => { c with make_frame := some (cutout_mf d ta tb) })
    match d.duration with
    | none => (s2, .ok p.2)
    | some dur =>
      (upd s2 p.2 (fun c => { c with duration := some (dur - (tb - ta)) }), .ok p.2)

/-- Store-level `Clip.fl` without the `apply_to` cascade: copy, install
`lambda t: fun(self.get_frame, t)` closing over the original, clear
`duration` when `keep_duration` is false.  This is also the form the
cascade applies to children (`a.fl(fun, keep_duration=keep_duration)`
passes no `apply_to`). -/
def fl_core {F : Type} (fn : (ℚ → Except Err F) → ℚ → Except Err F) (keep_duration : Bool)
    (s : Store F) (a : Nat) : Store F × Except Err Nat :=
  match s[a]? with
  | none => (s, .error .attributeError)
  | some d =>
    let p := copyClip s a
    let s2 := upd p.1 p.2 (fun c => { c with make_frame := some (fun t => fn (get_frame d) t) })
    if keep_duration then (s2, .ok p.2)
    else (upd s2 p.2 (fun c => { c with duration := none }), .ok p.2)

/-- One `apply_to` iteration of `Clip.fl`: when requested and the new
clip's slot holds a child, run the child's `fl` and reattach. -/
def fl_child_step {F : Type} (fn : (ℚ → Except Err F) → ℚ → Except Err F)
    (keep_duration : Bool) (get_slot : CD F → Option Nat)
    (set_slot : Option Nat → CD F → CD F) (apply? : Bool)
    (s : Store F) (n : Nat) : Store F × Except Err Nat :=
  if apply? then
    match (s[n]?).bind get_slot with
    | none => (s, .ok n)
    | some child =>
      let q := fl_core fn keep_duration s child
      match q.2 with
      | .error e => (q.1, .error e)
      | .ok nc => (upd q.1 n (set_slot (some nc)), .ok n)
  else (s, .ok n)

/-- Store-level `Clip.fl` with its `apply_to` cascade (the `'mask'` /
`'audio'` members of the caller's list become two flags; the loop visits
mask first, then audio). -/
def fl_heap {F : Type} (fn : (ℚ → Except Err F) → ℚ → Except Err F)
    (applyMask applyAudio keep_duration : Bool) (s : Store F) (a : Nat) :
    Store F × Except Err Nat :=
  let p := fl_core fn keep_duration s a
  match p.2 with
  | .error e => (p.1, .error e)
  | .ok n =>
    let q := fl_child_step fn keep_duration CD.mask (fun v c => { c with mask := v }) applyMask p.1 n
    match q.2 with
    | .error e => (q.1, .error e)
    | .ok n2 =>
      fl_child_step fn keep_duration CD.audio (fun v c => { c with audio := v }) applyAudio q.1 n2

/-- The structural operations of the copy-before-mutate contract. -/
inductive StructOp (F : Type) where
  | opSetStart (t : ℚ) (change_end : Bool)
  | opSetEnd (t : ℚ)
  | opSetDuration (t : ℚ) (change_end : Bool)
  | opSubclip (t_start : ℚ) (t_end? : Option ℚ)
  | opCutout (ta tb : ℚ)
  | opFl (fn : (ℚ → Except Err F) → ℚ → Except Err F) (applyMask applyAudio keep_duration : Bool)

/-- Dispatch of a structural operation with its decorator stack in source
order (`@apply_to_mask` outermost, then `@apply_to_audio`, then the
copying core). -/
def runOp {F : Type} : StructOp F → Store F → Nat → Store F × Except Err Nat
  | .opSetStart t ce => apply_to_mask (apply_to_audio (outplace (fun d => .ok (set_start d t ce))))
  | .opSetEnd t => apply_to_mask (apply_to_audio (outplace (fun d => .ok (set_end d t))))
  | .opSetDuration t ce => apply_to_mask (apply_to_audio (outplace (fun d => set_duration d t ce)))
  | .opSubclip ts te? => apply_to_mask (apply_to_audio (subclip_core ts te?))
  | .opCutout ta tb => apply_to_mask (apply_to_audio (cutout_core ta tb))
  | .opFl fn am aa kd => fl_heap fn am aa kd

/-- The timing mutations and cuts of the timeline-consistency claim. -/
inductive MutOp where
  | mStart (t : ℚ) (change_end : Bool)
  | mEnd (t : ℚ)
  | mDuration (t : ℚ) (change_end : Bool)
  | mSubclip (t_start : ℚ) (t_end? : Option ℚ)

/-- Field-level result of a timing mutation (the returned clip's own
`start`/`end`/`duration`; the decorators only redirect the `mask` and
`audio` slots). -/
def applyMut {F : Type} : MutOp → CD F → Except Err (CD F)
  | .mStart t ce, c => .ok (set_start c t ce)
  | .mEnd t, c => .ok (set_end c t)
  | .mDuration t ce, c => set_duration c t ce
  | .mSubclip ts te?, c => subclip c ts te?

/-- Store extension: every cell that existed before is unchanged. -/
def Preserved {F : Type} (s s' : Store F) : Prop :=
  s.length ≤ s'.length ∧ ∀ i, i < s.length → s'[i]? = s[i]?

/-- A store operation that never disturbs pre-existing cells and, on
success, returns a freshly allocated address. -/
def GoodOp {F : Type} (g : Store F → Nat → Store F × Except Err Nat) : Prop :=
  ∀ s a, Preserved s (g s a).1 ∧ ∀ n, (g s a).2 = .ok n → s.length ≤ n

/-- A bare clip (`Clip.__init__` defaults), used as a concrete receiver. -/
def clipDefault : CD ℚ := {}

/-- Concrete clip with `start = 0`, `end = 10`, `duration = 10`. -/
def clipA : CD ℚ :=
  { start := some 0, end_ := some 10, duration := some 10,
    make_frame := none, fps := none, mask := none, audio := none }

/-- Concrete clip with `start = 0`, `end = 5` and no duration. -/
def clipB : CD ℚ :=
  { start := some 0, end_ := some 5, duration := none,
    make_frame := none, fps := none, mask := none, audio := none }

/-- Concrete clip of duration 2 whose frame at `t` is `t` itself. -/
def clipC : CD ℚ :=
  { start := some 0, end_ := some 2, duration := some 2,
    make_frame := some (fun t => .ok t), fps := none, mask := none, audio := none }

/-- The clip record `AudioArrayClip([[1, 1], [2, 3]], fps=1)` builds. -/
def aacDemo : CD (List ℚ) := aacRecord [[1, 1], [2, 3]] 1

/-- The twenty sample times `0.0, 0.1, ..., 1.9`. -/
def times20 : List ℚ :=
  [0, 1/10, 2/10, 3/10, 4/10, 5/10, 6/10, 7/10, 8/10, 9/10, 10/10,
   11/10, 12/10, 13/10, 14/10, 15/10, 16/10, 17/10, 18/10, 19/10]

/-! ## Helper lemmas -/

theorem pyInt_of_nonneg (q : ℚ) (h : 0 ≤ q) : pyInt q = Int.floor q := by
  unfold pyInt
  rw [if_neg (not_lt.mpr h)]

theorem le_foldl_min_iff (xs : List ℚ) (x e : ℚ) :
    e ≤ xs.foldl min x ↔ e ≤ x ∧ ∀ y ∈ xs, e ≤ y := by
  induction xs generalizing x with
  | nil => simp
  | cons y ys ih =>
    simp only [List.foldl_cons, ih, le_min_iff, List.mem_cons]
    constructor
    · rintro ⟨⟨h1, h2⟩, h3⟩
      exact ⟨h1, fun z hz => hz.elim (fun he => he ▸ h2) (h3 z)⟩
    · rintro ⟨h1, h2⟩
      exact ⟨⟨h1, h2 y (Or.inl rfl)⟩, fun z hz => h2 z (Or.inr hz)⟩

theorem foldl_max_lt_iff (xs : List ℚ) (x e : ℚ) :
    xs.foldl max x < e ↔ x < e ∧ ∀ y ∈ xs, y < e := by
  induction xs generalizing x with
  | nil => simp
  | cons y ys ih =>
    simp only [List.foldl_cons, ih, max_lt_iff, List.mem_cons]
    constructor
    · rintro ⟨⟨h1, h2⟩, h3⟩
      exact ⟨h1, fun z hz => hz.elim (fun he => he ▸ h2) (h3 z)⟩
    · rintro ⟨h1, h2⟩
      exact ⟨⟨h1, h2 y (Or.inl rfl)⟩, fun z hz => h2 z (Or.inr hz)⟩

theorem linspace_length (a b : ℚ) (num : Nat) : (linspace a b num).length = num := by
  match num with
  | 0 => rfl
  | 1 => rfl
  | (n + 2) =>
    have h : linspace a b (n + 2) =
        (List.range (n + 2)).map (fun i : ℕ => a + (b - a) * (i : ℚ) / ((n + 1 : ℕ) : ℚ)) := rfl
    rw [h, List.length_map, List.length_range]

theorem preserved_refl {F : Type} (s : Store F) : Preserved s s :=
  ⟨le_refl _, fun _ _ => rfl⟩

theorem preserved_trans {F : Type} {s1 s2 s3 : Store F}
    (h12 : Preserved s1 s2) (h23 : Preserved s2 s3) : Preserved s1 s3 :=
  ⟨le_trans h12.1 h23.1, fun i hi => (h23.2 i (lt_of_lt_of_le hi h12.1)).trans (h12.2 i hi)⟩

theorem preserved_append {F : Type} (s : Store F) (l : List (CD F)) :
    Preserved s (s ++ l) := by
  refine ⟨by simp, fun i hi => ?_⟩
  rw [List.getElem?_append]
  simp [hi]

theorem preserved_upd {F : Type} {s0 s : Store F} (h : Preserved s0 s) (n : Nat)
    (hn : s0.length ≤ n) (f : CD F → CD F) : Preserved s0 (upd s n f) := by
  unfold upd
  match hc : s[n]? with
  | none => exact h
  | some d =>
    refine ⟨by simpa using h.1, fun i hi => ?_⟩
    rw [List.getElem?_set_ne (by omega : n ≠ i)]
    exact h.2 i hi

theorem length_le_of_getElem?_eq_none {F : Type} {s : Store F} {n : Nat}
    (h : s[n]? = none) : s.length ≤ n := by
  simpa using List.getElem?_eq_none_iff.mp h

theorem copyChild_preserved {F : Type} (s : Store F) (o : Option Nat) :
    Preserved s (copyChild s o).1 := by
  cases o with
  | none => exact preserved_refl s
  | some m =>
    cases h : s[m]? with
    | none => simp only [copyChild, h]; exact preserved_refl s
    | some dm => simp only [copyChild, h]; exact preserved_append s [dm]

theorem copyClip_preserved {F : Type} (s : Store F) (a : Nat) :
    Preserved s (copyClip s a).1 := by
  cases h : s[a]? with
  | none => simp only [copyClip, h]; exact preserved_refl s
  | some d =>
    simp only [copyClip, h]
    refine preserved_upd (preserved_trans ?_ (copyChild_preserved _ d.mask)) _ (le_refl _) _
    exact preserved_upd (preserved_trans (preserved_append s [d]) (copyChild_preserved _ d.audio))
      _ (le_refl _) _

theorem copyClip_fresh {F : Type} (s : Store F) (a : Nat) :
    s.length ≤ (copyClip s a).2 := by
  cases h : s[a]? with
  | none => simp only [copyClip, h]; exact length_le_of_getElem?_eq_none h
  | some d => simp only [copyClip, h]; exact le_refl _

theorem goodOp_outplace {F : Type} (body : CD F → Except Err (CD F)) :
    GoodOp (outplace body) := by
  intro s a
  have hp := copyClip_preserved s a
  have hf := copyClip_fresh s a
  simp only [outplace]
  split
  · exact ⟨hp, fun n hn => Except.noConfusion hn⟩
  · split
    · exact ⟨hp, fun n hn => Except.noConfusion hn⟩
    · exact ⟨preserved_upd hp _ hf _, fun n hn => by injection hn with h; exact h ▸ hf⟩

theorem goodOp_apply_to_audio {F : Type} {g : Store F → Nat → Store F × Except Err Nat}
    (hg : GoodOp g) : GoodOp (apply_to_audio g) := by
  intro s a
  obtain ⟨hp1, hf1⟩ := hg s a
  simp only [apply_to_audio]
  split
  · exact ⟨hp1, fun n hn => Except.noConfusion hn⟩
  · rename_i n h1
    have hn := hf1 n h1
    split
    · exact ⟨hp1, fun m hm => by injection hm with h; exact h ▸ hn⟩
    · rename_i au h2
      obtain ⟨hp2, hf2⟩ := hg (g s a).1 au
      split
      · exact ⟨preserved_trans hp1 hp2, fun m hm => Except.noConfusion hm⟩
      · exact ⟨preserved_upd (preserved_trans hp1 hp2) n hn _,
          fun m hm => by injection hm with h; exact h ▸ hn⟩

theorem goodOp_apply_to_mask {F : Type} {g : Store F → Nat → Store F × Except Err Nat}
    (hg : GoodOp g) : GoodOp (apply_to_mask g) := by
  intro s a
  obtain ⟨hp1, hf1⟩ := hg s a
  simp only [apply_to_mask]
  split
  · exact ⟨hp1, fun n hn => Except.noConfusion hn⟩
  · rename_i n h1
    have hn := hf1 n h1
    split
    · exact ⟨hp1, fun m hm => by injection hm with h; exact h ▸ hn⟩
    · rename_i mk h2
      obtain ⟨hp2, hf2⟩ := hg (g s a).1 mk
      split
      · exact ⟨preserved_trans hp1 hp2, fun m hm => Except.noConfusion hm⟩
      · exact ⟨preserved_upd (preserved_trans hp1 hp2) n hn _,
          fun m hm => by injection hm with h; exact h ▸ hn⟩

theorem goodOp_subclip_core {F : Type} (ts : ℚ) (te? : Option ℚ) :
    GoodOp (subclip_core (F := F) ts te?) := by
  intro s a
  have hp := copyClip_preserved s a
  have hf := copyClip_fresh s a
  simp only [subclip_core]
  split
  · exact ⟨preserved_refl s, fun n hn => Except.noConfusion hn⟩
  · split
    · exact ⟨preserved_refl s, fun n hn => Except.noConfusion hn⟩
    · split
      · exact ⟨preserved_upd hp _ hf _, fun n hn => Except.noConfusion hn⟩
      · exact ⟨preserved_upd hp _ hf _, fun n hn => by injection hn with h; exact h ▸ hf⟩

theorem goodOp_cutout_core {F : Type} (ta tb : ℚ) : GoodOp (cutout_core (F := F) ta tb) := by
  intro s a
  have hp := copyClip_preserved s a
  have hf := copyClip_fresh s a
  simp only [cutout_core]
  split
  · exact ⟨preserved_refl s, fun n hn => Except.noConfusion hn⟩
  · split
    · exact ⟨preserved_upd hp _ hf _, fun n hn => by injection hn with h; exact h ▸ hf⟩
    · exact ⟨preserved_upd (preserved_upd hp _ hf _) _ hf _,
        fun n hn => by injection hn with h; exact h ▸ hf⟩

theorem goodOp_fl_core {F : Type} (fn : (ℚ → Except Err F) → ℚ → Except Err F)
    (kd : Bool) : GoodOp (fl_core fn kd) := by
  intro s a
  have hp := copyClip_preserved s a
  have hf := copyClip_fresh s a
  simp only [fl_core]
  split
  · exact ⟨preserved_refl s, fun n hn => Except.noConfusion hn⟩
  · split
    · exact ⟨preserved_upd hp _ hf _, fun n hn => by injection hn with h; exact h ▸ hf⟩
    · exact ⟨preserved_upd (preserved_upd hp _ hf _) _ hf _,
        fun n hn => by injection hn with h; exact h ▸ hf⟩

theorem fl_child_step_good {F : Type} (fn : (ℚ → Except Err F) → ℚ → Except Err F)
    (kd : Bool) (get_slot : CD F → Option Nat) (set_slot : Option Nat → CD F → CD F)
    (ap : Bool) (s0 s : Store F) (n : Nat) (hp : Preserved s0 s) (hn : s0.length ≤ n) :
    Preserved s0 (fl_child_step fn kd get_slot set_slot ap s n).1 ∧
    ∀ m, (fl_child_step fn kd get_slot set_slot ap s n).2 = .ok m → s0.length ≤ m := by
  simp only [fl_child_step]
  split
  · split
    · exact ⟨hp, fun m hm => by injection hm with h; exact h ▸ hn⟩
    · rename_i child h1
      obtain ⟨hp2, hf2⟩ := goodOp_fl_core fn kd s child
      split
      · exact ⟨preserved_trans hp hp2, fun m hm => Except.noConfusion hm⟩
      · exact ⟨preserved_upd (preserved_trans hp hp2) n hn _,
          fun m hm => by injection hm with h; exact h ▸ hn⟩
  · exact ⟨hp, fun m hm => by injection hm with h; exact h ▸ hn⟩

theorem goodOp_fl_heap {F : Type} (fn : (ℚ → Except Err F) → ℚ → Except Err F)
    (am aa kd : Bool) : GoodOp (fl_heap fn am aa kd) := by
  intro s a
  obtain ⟨hp1, hf1⟩ := goodOp_fl_core fn kd s a
  simp only [fl_heap]
  split
  · exact ⟨hp1, fun n hn => Except.noConfusion hn⟩
  · rename_i n h1
    have hn := hf1 n h1
    obtain ⟨hp2, hf2⟩ :=
      fl_child_step_good fn kd CD.mask (fun v c => { c with mask := v }) am
        s (fl_core fn kd s a).1 n hp1 hn
    split
    · exact ⟨hp2, fun m hm => Except.noConfusion hm⟩
    · rename_i n2 h2
      exact fl_child_step_good fn kd CD.audio (fun v c => { c with audio := v }) aa
        s _ n2 hp2 (hf2 n2 h2)

theorem runOp_good {F : Type} (op : StructOp F) : GoodOp (runOp op) := by
  cases op with
  | opSetStart t ce => exact goodOp_apply_to_mask (goodOp_apply_to_audio (goodOp_outplace _))
  | opSetEnd t => exact goodOp_apply_to_mask (goodOp_apply_to_audio (goodOp_outplace _))
  | opSetDuration t ce => exact goodOp_apply_to_mask (goodOp_apply_to_audio (goodOp_outplace _))
  | opSubclip ts te? =>
    exact goodOp_apply_to_mask (goodOp_apply_to_audio (goodOp_subclip_core ts te?))
  | opCutout ta tb =>
    exact goodOp_apply_to_mask (goodOp_apply_to_audio (goodOp_cutout_core ta tb))
  | opFl fn am aa kd => exact goodOp_fl_heap fn am aa kd

/-! ## Claim theorems -/

/-- C7: Copy-before-mutate: every structural operation (`set_start`,
`set_end`, `set_duration`, `subclip`, `cutout`, `fl`) leaves every
pre-existing store cell — in particular the receiver with its `start`,
`end`, `duration`, `make_frame`, `mask` and `audio` slots — exactly as it
was, and on success returns a freshly allocated copy. -/
theorem copy_before_mutate_spec {F : Type} (op : StructOp F) (s : Store F) (a : Nat) :
    (∀ i, i < s.length → ((runOp op s a).1)[i]? = s[i]?) ∧
    (∀ n, (runOp op s a).2 = .ok n → s.length ≤ n) := by
  obtain ⟨hp, hf⟩ := runOp_good op s a
  exact ⟨hp.2, hf⟩

theorem copy_before_mutate_witness :
    ((runOp (.opSetStart 3 true) ([clipDefault] : Store ℚ) 0).1)[0]? =
      ([clipDefault] : Store ℚ)[0]? :=
  (copy_before_mutate_spec (.opSetStart 3 true) [clipDefault] 0).1 0 (by decide)

/-- C1 counterexample: `cutout` violates the timeline-consistency
invariant: on a clip with `start = 0`, `end = 10`, `duration = 10`,
`cutout(2, 4)` returns `start = 0`, `end = 10`, `duration = 8`, all
defined, with `8 ≠ 10 - 0`. -/
theorem timeline_invariant_cutout_cex :
    (cutout clipA 2 4).start = some 0 ∧
    (cutout clipA 2 4).end_ = some 10 ∧
    (cutout clipA 2 4).duration = some 8 ∧
    (8 : ℚ) ≠ 10 - 0 := by
  refine ⟨rfl, rfl, ?_, by norm_num⟩
  have h : (cutout clipA 2 4).duration = some ((10 : ℚ) - (4 - 2)) := rfl
  rw [h]
  norm_num

/-- C1 (amended): the timeline-consistency invariant holds for
`set_start`, `set_end`, `set_duration` and `subclip`: whenever such a
mutation succeeds and the result has `start`, `end` and `duration` all
defined, `duration = end - start`.  (`cutout` is excluded: it shrinks
`duration` but leaves `end` untouched, see the counterexample.) -/
theorem timeline_invariant_mutators {F : Type} (op : MutOp) (c c' : CD F)
    (h : applyMut op c = .ok c') :
    ∀ sv ev dv, c'.start = some sv → c'.end_ = some ev → c'.duration = some dv →
      dv = ev - sv := by
  intro sv ev dv hs he hd
  cases op with
  | mStart t ce =>
    simp only [applyMut] at h
    injection h with h
    subst h
    cases ce with
    | true =>
      rcases hdur : c.duration with _ | dur <;> simp [set_start, hdur] at hs he hd <;>
        linarith
    | false =>
      rcases hend : c.end_ with _ | e0 <;> simp [set_start, hend] at hs he hd <;>
        linarith
  | mEnd t =>
    simp only [applyMut] at h
    injection h with h
    subst h
    rcases hst : c.start with _ | s0
    · rcases hdur : c.duration with _ | dur <;> simp [set_end, hst, hdur] at hs he hd <;>
        linarith
    · simp [set_end, hst] at hs he hd
      linarith
  | mDuration t ce =>
    have h0 : set_duration c t ce = .ok c' := h
    cases ce with
    | true =>
      rcases hst : c.start with _ | s0 <;> simp [set_duration, hst] at h0
      subst h0
      simp [hst] at hs he hd
      linarith
    | false =>
      rcases hend : c.end_ with _ | e0 <;> simp [set_duration, hend] at h0
      subst h0
      simp [hend] at hs he hd
      linarith
  | mSubclip ts te? =>
    simp only [applyMut, subclip] at h
    cases hr : resolve_subclip_bounds c ts te? with
    | error e => rw [hr] at h; exact Except.noConfusion h
    | ok p =>
      rw [hr] at h
      obtain ⟨ts2, te2?⟩ := p
      cases te2? with
      | none => exact Except.noConfusion h
      | some te =>
        injection h with h
        subst h
        simp at hs he hd
        linarith

theorem timeline_invariant_mutators_witness :
    (set_end clipA 7).start = some 0 ∧ (set_end clipA 7).end_ = some 7 ∧
    (set_end clipA 7).duration = some ((7 : ℚ) - 0) ∧ ((7 : ℚ) - 0) = 7 - 0 :=
  ⟨rfl, rfl, rfl,
    timeline_invariant_mutators (.mEnd 7) clipA (set_end clipA 7) rfl 0 7 (7 - 0)
      rfl rfl rfl⟩

/-- C9: `set_duration(t, change_end=False)` raises the
spec's `PreconditionError` (a `ValueError` in the source) when `end` is
undefined, and otherwise sets `duration = t`, recomputes
`start = end - t` and leaves `end` unchanged. -/
theorem set_duration_no_change_end_spec {F : Type} (c : CD F) (t : ℚ) :
    (c.end_ = none → set_duration c t false =
      .error (.valueError "Cannot change start of clip with undefined end.")) ∧
    (∀ e, c.end_ = some e → set_duration c t false =
      .ok { c with duration := some t, start := some (e - t) }) := by
  constructor
  · intro h
    simp [set_duration, h]
  · intro e h
    simp [set_duration, h]

theorem set_duration_no_change_end_witness :
    set_duration clipB 2 false =
      .ok { clipB with duration := some 2, start := some ((5 : ℚ) - 2) } :=
  (set_duration_no_change_end_spec clipB 2).2 5 rfl

/-- C10: on a clip with undefined `duration`, `subclip` with a
non-negative `t_start` and the default `t_end = None` raises (the
`duration = t_end - t_start` assignment is a `TypeError` on `None`)
instead of returning a clip with undefined `end` and `duration`. -/
theorem subclip_default_end_error_spec {F : Type} (c : CD F) (ts : ℚ)
    (hd : c.duration = none) (hts : 0 ≤ ts) : subclip c ts none = .error .typeError := by
  have h2 : ¬ ts < 0 := not_lt.mpr hts
  simp [subclip, resolve_subclip_bounds, hd, h2]

theorem subclip_default_end_error_witness :
    subclip (clipDefault : CD ℚ) 1 none = .error .typeError :=
  subclip_default_end_error_spec clipDefault 1 rfl zero_le_one

theorem cutout_make_frame_eq {F : Type} (c : CD F) (ta tb : ℚ) :
    (cutout c ta tb).make_frame = some (cutout_mf c ta tb) := by
  unfold cutout
  split <;> rfl

/-- C3: `cutout(ta, tb)` splices the timeline: for `t < ta` the frame is
the source frame at `t`; for `t ≥ ta` it is the source frame at
`t + (tb - ta)` (so the frame at `ta` is the source frame at `tb`); and
when the source `duration` is defined the result's duration is
`duration - (tb - ta)`. -/
theorem cutout_frames_spec {F : Type} (c : CD F) (ta tb : ℚ) (hab : ta ≤ tb) :
    (∀ t, t < ta → get_frame (cutout c ta tb) t = get_frame c t) ∧
    (∀ t, ta ≤ t → get_frame (cutout c ta tb) t = get_frame c (t + (tb - ta))) ∧
    get_frame (cutout c ta tb) ta = get_frame c tb ∧
    (∀ D, c.duration = some D → (cutout c ta tb).duration = some (D - (tb - ta))) := by
  have hmf : ∀ t, get_frame (cutout c ta tb) t = cutout_mf c ta tb t := by
    intro t
    unfold get_frame
    rw [cutout_make_frame_eq]
  refine ⟨?_, ?_, ?_, ?_⟩
  · intro t ht
    rw [hmf]
    unfold cutout_mf
    rw [if_pos ht]
  · intro t ht
    rw [hmf]
    unfold cutout_mf
    rw [if_neg (not_lt.mpr ht)]
  · rw [hmf]
    unfold cutout_mf
    rw [if_neg (lt_irrefl ta)]
    congr 1
    ring
  · intro D hD
    simp [cutout, hD]

theorem cutout_frames_witness :
    get_frame (cutout clipC 1 2) 1 = get_frame clipC 2 :=
  (cutout_frames_spec clipC 1 2 one_le_two).2.2.1

/-- C4: `subclip(a, b)` on a clip of duration `D` with `0 ≤ a < b ≤ D`
returns the copy with `start = a`, `end = b`, `duration = b - a`; a
negative bound is taken relative to `D` (`subclip(0, -2)` ≡
`subclip(0, D-2)`); and a negative bound on a clip without duration
raises the spec's `PreconditionError` (a `ValueError` in the source). -/
theorem subclip_spec {F : Type} (c : CD F) (D a b : ℚ) :
    (c.duration = some D → 0 ≤ a → a < b → b ≤ D →
      subclip c a (some b) =
        .ok { c with start := some a, end_ := some b, duration := some (b - a) }) ∧
    (c.duration = some D →
      subclip c 0 (some (-2)) =
        .ok { c with start := some 0, end_ := some (D - 2), duration := some (D - 2) }) ∧
    (c.duration = some D → 0 ≤ D - 2 →
      subclip c 0 (some (-2)) = subclip c 0 (some (D - 2))) ∧
    (c.duration = none → a < 0 →
      subclip c a (some b) =
        .error (.valueError "Subclip with negative times can only be extracted from clips with a duration")) ∧
    (c.duration = none → 0 ≤ a → b < 0 →
      subclip c a (some b) =
        .error (.valueError "Subclip with negative times can only be extracted from clips with a duration")) := by
  refine ⟨?_, ?_, ?_, ?_, ?_⟩
  · intro hD ha hab hbD
    have ha2 : ¬ a < 0 := not_lt.mpr ha
    have hb2 : ¬ b < 0 := not_lt.mpr (le_of_lt (lt_of_le_of_lt ha hab))
    simp [subclip, resolve_subclip_bounds, ha2, hb2]
  · intro hD
    have h0 : ¬ (0 : ℚ) < 0 := lt_irrefl 0
    have hm : (-2 : ℚ) < 0 := by norm_num
    simp only [subclip, resolve_subclip_bounds, h0, if_false, if_pos hm, hD]
    ring_nf
  · intro hD hD2
    have h0 : ¬ (0 : ℚ) < 0 := lt_irrefl 0
    have hm : (-2 : ℚ) < 0 := by norm_num
    have hd2 : ¬ (D - 2) < 0 := not_lt.mpr hD2
    simp only [subclip, resolve_subclip_bounds, h0, if_false, if_pos hm, hd2, hD]
    ring_nf
  · intro hD ha
    simp [subclip, resolve_subclip_bounds, hD, ha]
  · intro hD ha hb
    have ha2 : ¬ a < 0 := not_lt.mpr ha
    simp [subclip, resolve_subclip_bounds, hD, ha2, hb]

theorem subclip_spec_witness :
    subclip clipA 1 (some 3) =
      .ok { clipA with start := some 1, end_ := some 3, duration := some ((3 : ℚ) - 1) } :=
  (subclip_spec clipA 10 1 3).1 rfl zero_le_one (by norm_num) (by norm_num)

/-- C5: `iter_frames` fails when `duration` is undefined; fails when no
fps is available from either the argument or the clip; falls back to the
clip's own fps; and for a defined nonnegative duration and fps yields
exactly `floor(duration · fps)` sample times,
`linspace(0, duration, total+1)[:-1]`, each frame being `get_frame` at
its sample time. -/
theorem iter_frames_spec {F : Type} (c : CD F) :
    (c.duration = none → ∀ fps?, iter_frames_times c fps? =
      .error (.valueError "Attribute duration not set")) ∧
    (c.duration ≠ none → c.fps = none → iter_frames_times c none =
      .error (.valueError "No fps attribute specified")) ∧
    (∀ fps, c.fps = some fps → iter_frames_times c none = iter_frames_times c (some fps)) ∧
    (∀ dur fps, c.duration = some dur → 0 ≤ dur → 0 ≤ fps →
      iter_frames_times c (some fps) =
        .ok ((linspace 0 dur ((Int.floor (dur * fps)).toNat + 1)).dropLast) ∧
      ∀ ts, iter_frames_times c (some fps) = .ok ts →
        ts.length = (Int.floor (dur * fps)).toNat) ∧
    (∀ fps?, iter_frames c fps? =
      (iter_frames_times c fps?).bind (fun ts => ts.mapM (get_frame c))) := by
  refine ⟨?_, ?_, ?_, ?_, ?_⟩
  · intro h fps?
    simp [iter_frames_times, h]
  · intro h1 h2
    rcases hdur : c.duration with _ | dur
    · exact absurd hdur h1
    · simp [iter_frames_times, hdur, h2]
  · intro fps hf
    rcases hdur : c.duration with _ | dur <;> simp [iter_frames_times, hdur, hf]
  · intro dur fps hdur h0 hf0
    have hmul : (0 : ℚ) ≤ dur * fps := mul_nonneg h0 hf0
    have hpy : pyInt (dur * fps) = Int.floor (dur * fps) := pyInt_of_nonneg _ hmul
    have hfl : (0 : ℤ) ≤ Int.floor (dur * fps) := Int.floor_nonneg.mpr hmul
    have htn : (Int.floor (dur * fps) + 1).toNat = (Int.floor (dur * fps)).toNat + 1 := by
      omega
    have hval : iter_frames_times c (some fps) =
        .ok ((linspace 0 dur ((Int.floor (dur * fps)).toNat + 1)).dropLast) := by
      simp only [iter_frames_times, hdur, hpy, htn]
    refine ⟨hval, fun ts hts => ?_⟩
    rw [hval] at hts
    injection hts with hts
    subst hts
    rw [List.length_dropLast, linspace_length]
    omega
  · intro fps?
    rfl

theorem iter_frames_spec_witness :
    iter_frames_times clipC (some 10) = .ok times20 ∧ times20.length = 20 := by
  have h := ((iter_frames_spec clipC).2.2.2.1 2 10 rfl (by norm_num) (by norm_num)).1
  refine ⟨?_, rfl⟩
  rw [h]
  have h21 : (Int.floor ((2 : ℚ) * 10)).toNat + 1 = 21 := by
    have : Int.floor ((2 : ℚ) * 10) = 20 := by norm_num
    rw [this]
    rfl
  rw [h21]
  have hl : linspace 0 2 21 =
      (List.range 21).map (fun i : ℕ => 0 + (2 - 0) * (i : ℚ) / ((20 : ℕ) : ℚ)) := rfl
  have hr : List.range 21 =
      [0, 1, 2, 3, 4, 5, 6, 7, 8, 9, 10, 11, 12, 13, 14, 15, 16, 17, 18, 19, 20] := by
    decide
  rw [hl, hr]
  simp only [List.map, List.dropLast]
  norm_num [times20]

/-- C2 counterexample: on a clip with `start = 0`, `end = 5`, the vector
query `[5]` short-circuits to the scalar `False` (the source tests
`tmin >= end`), although `5` is not strictly outside `[0, 5]`: the
scalar rule plays it (`0 ≤ 5` and `5 ≤ 5`). -/
theorem is_playing_vector_boundary_cex :
    is_playing_vec clipB [5] = .ok .scalarFalse ∧
    is_playing clipB 5 = .ok true ∧ (0 : ℚ) ≤ 5 ∧ (5 : ℚ) ≤ 5 := by
  refine ⟨?_, ?_, by norm_num, le_refl 5⟩
  · norm_num [is_playing_vec, clipB]
  · norm_num [is_playing, clipB]

/-- C2 (amended): the scalar `is_playing` follows the rule `start ≤ t`
and (`end` undefined or `t ≤ end`); a nonempty vector query returns the
scalar `False` exactly when (`end` is defined and every entry is
`≥ end`) or every entry is `< start` — so entries equal to `end` count
as outside, unlike the scalar rule — and any elementwise mask it returns
agrees with the scalar rule pointwise. -/
theorem is_playing_spec {F : Type} (c : CD F) (s : ℚ) (hs : c.start = some s) :
    (∀ t, is_playing c t = .ok (playRule c.end_ s t)) ∧
    (∀ t, playRule c.end_ s t = true ↔
      s ≤ t ∧ (c.end_ = none ∨ ∃ e, c.end_ = some e ∧ t ≤ e)) ∧
    (∀ x xs,
      (is_playing_vec c (x :: xs) = .ok .scalarFalse ↔
        (∃ e, c.end_ = some e ∧ ∀ t ∈ x :: xs, e ≤ t) ∨ (∀ t ∈ x :: xs, t < s)) ∧
      (∀ bs, is_playing_vec c (x :: xs) = .ok (.mask bs) →
        bs = (x :: xs).map (playRule c.end_ s))) := by
  refine ⟨fun t => by simp [is_playing, hs, playRule], fun t => ?_, fun x xs => ?_⟩
  · rcases hend : c.end_ with _ | e <;> simp [playRule, hend]
  · rcases hend : c.end_ with _ | e
    · by_cases hX : xs.foldl max x < s
      · have hev : is_playing_vec c (x :: xs) = .ok .scalarFalse := by
          simp [is_playing_vec, hs, hend, hX]
        refine ⟨?_, ?_⟩
        · rw [hev]
          constructor
          · intro _
            right
            rw [List.forall_mem_cons]
            exact (foldl_max_lt_iff xs x s).mp hX
          · intro _
            rfl
        · intro bs hbs
          rw [hev] at hbs
          injection hbs with h
          exact PlayResult.noConfusion h
      · have hev : is_playing_vec c (x :: xs) =
            .ok (.mask ((x :: xs).map (playRule none s))) := by
          simp [is_playing_vec, hs, hend, hX, playRule]
        refine ⟨?_, ?_⟩
        · rw [hev]
          constructor
          · intro hc
            injection hc with h
            exact PlayResult.noConfusion h
          · rintro (⟨e, he, _⟩ | hall)
            · exact Option.noConfusion he
            · exact absurd ((foldl_max_lt_iff xs x s).mpr (List.forall_mem_cons.mp hall)) hX
        · intro bs hbs
          rw [hev] at hbs
          injection hbs with h
          injection h with h
          exact h.symm
    · by_cases hM : e ≤ xs.foldl min x
      · have hev : is_playing_vec c (x :: xs) = .ok .scalarFalse := by
          simp [is_playing_vec, hs, hend, hM]
        refine ⟨?_, ?_⟩
        · rw [hev]
          constructor
          · intro _
            left
            refine ⟨e, rfl, ?_⟩
            rw [List.forall_mem_cons]
            exact (le_foldl_min_iff xs x e).mp hM
          · intro _
            rfl
        · intro bs hbs
          rw [hev] at hbs
          injection hbs with h
          exact PlayResult.noConfusion h
      · by_cases hX : xs.foldl max x < s
        · have hev : is_playing_vec c (x :: xs) = .ok .scalarFalse := by
            simp [is_playing_vec, hs, hend, hM, hX]
          refine ⟨?_, ?_⟩
          · rw [hev]
            constructor
            · intro _
              right
              rw [List.forall_mem_cons]
              exact (foldl_max_lt_iff xs x s).mp hX
            · intro _
              rfl
          · intro bs hbs
            rw [hev] at hbs
            injection hbs with h
            exact PlayResult.noConfusion h
        · have hev : is_playing_vec c (x :: xs) =
              .ok (.mask ((x :: xs).map (playRule (some e) s))) := by
            simp [is_playing_vec, hs, hend, hM, hX, playRule]
          refine ⟨?_, ?_⟩
          · rw [hev]
            constructor
            · intro hc
              injection hc with h
              exact PlayResult.noConfusion h
            · rintro (⟨e2, he2, hall⟩ | hall)
              · injection he2 with he2
                subst he2
                rw [List.forall_mem_cons] at hall
                exact absurd ((le_foldl_min_iff xs x e).mpr hall) hM
              · exact absurd ((foldl_max_lt_iff xs x s).mpr (List.forall_mem_cons.mp hall)) hX
          · intro bs hbs
            rw [hev] at hbs
            injection hbs with h
            injection h with h
            exact h.symm

theorem is_playing_spec_witness :
    is_playing clipB 3 = .ok (playRule clipB.end_ 0 3) :=
  (is_playing_spec clipB 0 rfl).1 3

/-- C6 counterexample: with table `[[1, 1]]` and `fps = 1`: the scalar
frame at `t = -1/2` is `[1, 1]`, not a zero row, although
`⌊fps · t⌋ = -1` is outside `[0, 1)` (the source truncates toward zero,
`int(-0.5) == 0`); and the vector frame at `[0]` is the zero row
`[0, 0]`, not the gathered row `[1, 1]`, although index `0` is inside
`[0, 1)` (the source tests `array_inds > 0`, not `>= 0`). -/
theorem audio_array_frame_cex :
    aac_make_frame [[1, 1]] 1 (-1/2) = .ok [1, 1] ∧
    Int.floor ((1 : ℚ) * (-1/2)) = -1 ∧
    aac_make_frame_vec [[1, 1]] 1 [0] = .ok [[0, 0]] ∧
    Int.floor ((1 : ℚ) * 0) = 0 ∧
    ([1, 1] : List ℚ) ≠ [0, 0] := by
  have hpy : pyInt ((1 : ℚ) * (-1/2)) = 0 := by
    unfold pyInt
    norm_num
  have hpy0 : pyInt ((0 : ℚ)) = 0 := by
    unfold pyInt
    norm_num
  refine ⟨?_, by norm_num, ?_, by norm_num, by norm_num⟩
  · unfold aac_make_frame
    rw [hpy]
    norm_num
  · unfold aac_make_frame_vec
    norm_num [hpy0]

/-- C6 (amended): `AudioArrayClip(table, fps)` (necessarily nonempty
table — construction itself probes frame 0) has
`duration = len(table) / fps`; the scalar frame uses the toward-zero
truncated index `int(fps · t)`: outside `[0, len)` the frame is an
all-zero row shaped like row 0, inside it is the table row; the vector
frame, for a rectangular table of channel width 1 or 2, maps each entry
whose index lies strictly between `0` and `len` (so not index `0`) to
its table row broadcast into width 2 — exact for stereo, duplicated for
mono — and every other entry to the width-2 zero row, while any other
table width is a broadcast `ValueError`. -/
theorem audio_array_clip_spec (array : List (List ℚ)) (fps : ℚ) (c : CD (List ℚ))
    (h : audioArrayClip array fps = .ok c) :
    array ≠ [] ∧
    c.duration = some ((array.length : ℚ) / fps) ∧
    (∀ t r0, array.head? = some r0 →
      (pyInt (fps * t) < 0 ∨ (array.length : ℤ) ≤ pyInt (fps * t)) →
      get_frame c t = .ok (r0.map (fun _ => 0))) ∧
    (∀ t, 0 ≤ pyInt (fps * t) → pyInt (fps * t) < (array.length : ℤ) →
      get_frame c t = .ok (array.getD (pyInt (fps * t)).toNat [])) ∧
    (∀ (ts : List ℚ) (r0 : List ℚ), array.head? = some r0 →
      r0.length = 1 ∨ r0.length = 2 → array.all (fun r => r.length = r0.length) = true →
      aac_make_frame_vec array fps ts = .ok (ts.map (fun t =>
        if 0 < pyInt (fps * t) ∧ pyInt (fps * t) < (array.length : ℤ)
        then broadcastRow (array.getD (pyInt (fps * t)).toNat []) else [0, 0]))) ∧
    (∀ (ts : List ℚ) (r0 : List ℚ), array.head? = some r0 →
      ¬ (r0.length = 1 ∨ r0.length = 2) →
      aac_make_frame_vec array fps ts =
        .error (.valueError "could not broadcast input array")) := by
  have hc : c = aacRecord array fps ∧ array ≠ [] := by
    unfold audioArrayClip at h
    cases hmf : aac_make_frame array fps 0 with
    | error e => rw [hmf] at h; exact Except.noConfusion h
    | ok r =>
      rw [hmf] at h
      injection h with h
      refine ⟨h.symm, ?_⟩
      intro hnil
      subst hnil
      unfold aac_make_frame at hmf
      have hz : pyInt (fps * 0) = 0 := by
        rw [mul_zero]
        unfold pyInt
        norm_num
      rw [hz] at hmf
      norm_num at hmf
      exact Except.noConfusion hmf
  obtain ⟨hceq, hne⟩ := hc
  subst hceq
  have hgf : ∀ t, get_frame (aacRecord array fps) t = aac_make_frame array fps t :=
    fun t => rfl
  refine ⟨hne, rfl, ?_, ?_, ?_, ?_⟩
  · intro t r0 hr0 hout
    rw [hgf]
    unfold aac_make_frame
    rw [if_pos hout, hr0]
  · intro t h0 hlen
    rw [hgf]
    unfold aac_make_frame
    rw [if_neg (by push_neg; exact ⟨h0, hlen⟩)]
    have hlt : (pyInt (fps * t)).toNat < array.length := by omega
    rw [List.getElem?_eq_getElem hlt, List.getD_eq_getElem array [] hlt]
  · intro ts r0 hr0 hw hall
    simp only [aac_make_frame_vec, hr0]
    rw [if_pos ⟨hw, hall⟩]
  · intro ts r0 hr0 hnw
    simp only [aac_make_frame_vec, hr0]
    rw [if_neg (fun hc => hnw hc.1)]

theorem audio_array_clip_spec_witness :
    get_frame aacDemo 5 = .ok (([1, 1] : List ℚ).map (fun _ => 0)) ∧
    aac_make_frame_vec [[1, 1], [2, 3]] 1 [1] = .ok [[2, 3]] ∧
    aac_make_frame_vec [[4], [7]] 1 [1] = .ok [[7, 7]] := by
  have hz : pyInt ((1 : ℚ) * 0) = 0 := by
    unfold pyInt
    norm_num
  have h1 : pyInt ((1 : ℚ)) = 1 := by
    unfold pyInt
    norm_num
  have hok : audioArrayClip [[1, 1], [2, 3]] 1 = .ok aacDemo := by
    have hprobe : aac_make_frame [[1, 1], [2, 3]] 1 0 = .ok [1, 1] := by
      unfold aac_make_frame
      rw [hz]
      norm_num
    unfold audioArrayClip
    rw [hprobe]
    rfl
  have hok2 : audioArrayClip [[4], [7]] 1 = .ok (aacRecord [[4], [7]] 1) := by
    have hprobe2 : aac_make_frame [[4], [7]] 1 0 = .ok [4] := by
      unfold aac_make_frame
      rw [hz]
      norm_num
    unfold audioArrayClip
    rw [hprobe2]
  have h5 : pyInt ((1 : ℚ) * 5) = 5 := by
    unfold pyInt
    norm_num
  refine ⟨?_, ?_, ?_⟩
  · exact (audio_array_clip_spec [[1, 1], [2, 3]] 1 aacDemo hok).2.2.1 5 [1, 1] rfl
      (Or.inr (by rw [h5]; norm_num))
  · have hv := (audio_array_clip_spec [[1, 1], [2, 3]] 1 aacDemo hok).2.2.2.2.1
      [1] [1, 1] rfl (Or.inr rfl) (by decide)
    rw [hv]
    norm_num [h1, broadcastRow]
  · have hv := (audio_array_clip_spec [[4], [7]] 1 (aacRecord [[4], [7]] 1) hok2).2.2.2.2.1
      [1] [4] rfl (Or.inl rfl) (by decide)
    rw [hv]
    norm_num [h1, broadcastRow]

/-- C8 counterexample: the claimed `normalize_time("1:33,5") == 99.5`
fails on the code: `"1:33,5"` is 1 minute + 33.5 seconds and `cvsecs`
computes `1 * 60 + 33.5 = 93.5`; the 99.5 is an arithmetic slip in the
docstring that the spec inherited. -/
theorem cvsecs_string_cex :
    cvsecs (.vstr "1:33,5".toList) = .ok (.vnum (187 / 2)) ∧
    cvsecs (.vstr "1:33,5".toList) ≠ .ok (.vnum (199 / 2)) := by
  have h : cvsecs (.vstr "1:33,5".toList) =
      .ok (.vnum (((1 : ℕ) : ℚ) * 60 + (((33 : ℕ) : ℚ) + ((5 : ℕ) : ℚ) / (10 : ℚ) ^ (1 : ℕ)))) :=
    rfl
  constructor
  · rw [h]
    norm_num
  · rw [h]
    norm_num

/-- C8 (amended): time normalization: `None` passes through; the tuple
`(1, 1, 2)` gives 3662; `"01:01:33.045"` gives 3693.045; `"1:33,5"`
gives 93.5 (not the spec's 99.5); and a value of any other type is
returned unchanged rather than raising. -/
theorem cvsecs_spec :
    cvsecs .vnone = .ok .vnone ∧
    cvsecs (.vtup [1, 1, 2]) = .ok (.vnum 3662) ∧
    cvsecs (.vstr "01:01:33.045".toList) = .ok (.vnum (3693045 / 1000)) ∧
    cvsecs (.vstr "1:33,5".toList) = .ok (.vnum (187 / 2)) ∧
    ∀ tag, cvsecs (.vother tag) = .ok (.vother tag) := by
  refine ⟨rfl, ?_, ?_, ?_, fun tag => rfl⟩
  · have h : cvsecs (.vtup [1, 1, 2]) = .ok (.vnum ((1 : ℚ) * 3600 + 1 * 60 + 2)) := rfl
    rw [h]
    norm_num
  · have h : cvsecs (.vstr "01:01:33.045".toList) =
        .ok (.vnum (((1 : ℕ) : ℚ) * 3600 + ((1 : ℕ) : ℚ) * 60 +
          (((33 : ℕ) : ℚ) + ((45 : ℕ) : ℚ) / (10 : ℚ) ^ (3 : ℕ)))) := rfl
    rw [h]
    norm_num
  · have h : cvsecs (.vstr "1:33,5".toList) =
        .ok (.vnum (((1 : ℕ) : ℚ) * 60 + (((33 : ℕ) : ℚ) + ((5 : ℕ) : ℚ) / (10 : ℚ) ^ (1 : ℕ)))) :=
      rfl
    rw [h]
    norm_num
